import Mathlib

set_option maxRecDepth 20000

/-!
Shallow embedding of `src/server/main.py` (voice assistant server): the
sentence segmenter, the per-turn pipeline of the `end_audio` handler, the
per-connection message loop, and the process-wide `conversation_history`
that all connections share.  Python strings are modelled as `List Char`,
byte strings as `List Nat`, and the three model services (Whisper, Ollama,
Piper) as an opaque environment of pure functions.
-/

namespace VoiceServer

/-- Python strings are modelled as lists of characters. -/
abbrev Str := List Char

/-- ASCII whitespace recognised by Python's `str.strip()`: space, tab,
line feed, carriage return, vertical tab and form feed. -/
def pyIsSpace (c : Char) : Bool :=
  c = ' ' || c = '\t' || c = '\n' || c = '\r' || c = '\u000B' || c = '\u000C'

/-- Python `s.strip()`: remove leading and trailing whitespace. -/
def pyStrip (s : Str) : Str :=
  ((s.dropWhile pyIsSpace).reverse.dropWhile pyIsSpace).reverse

/-- Index of the last occurrence of `c` in `s` (Python `s.rfind(c)`);
meaningful when `c` occurs in `s`. -/
def lastIdxOf (s : Str) (c : Char) : Nat :=
  s.length - (s.reverse.indexOf c + 1)

/-- The sentence-ending characters, in the order the code's
`for ender in ".!?"` loop visits them. -/
def sentence_enders : Str := ['.', '!', '?']

/-- The first ender (in `".!?"` order) that occurs anywhere in the buffer:
the ender the code's loop body fires on before it `break`s. -/
def findEnder (b : Str) : Option Char :=
  sentence_enders.find? (fun e => b.contains e)

/-- Split the buffer at the last occurrence of the ender `c`
(`idx = sentence_buffer.rfind(ender)`): the slice up to and including `c`
is stripped and emitted when non-empty, the rest becomes the new buffer. -/
def splitLast (b : Str) (c : Char) : Option Str × Str :=
  let i := lastIdxOf b c
  let sentence := pyStrip (b.take (i + 1))
  (if sentence = [] then none else some sentence, b.drop (i + 1))

/-- One delta of segmentation, exactly as in the `end_audio` handler:
the delta is appended to the sentence buffer, then the `for ender in ".!?"`
loop fires on the first ender present in the buffer, splits at that ender's
last occurrence, and `break`s. -/
def segStep (buf delta : Str) : Option Str × Str :=
  match findEnder (buf ++ delta) with
  | none => (none, buf ++ delta)
  | some e => splitLast (buf ++ delta) e

/-- Run the segmenter over a list of deltas: all emitted Sentences in order,
together with the final trailing sentence buffer. -/
def segRun (buf : Str) : List Str → List Str × Str
  | [] => ([], buf)
  | d :: ds =>
    let r := segStep buf d
    let p := segRun r.2 ds
    (r.1.toList ++ p.1, p.2)

/-- Like `segRun`, but keeping the Sentences emitted after each delta
separate (one inner list per delta). -/
def segTrace (buf : Str) : List Str → List (List Str) × Str
  | [] => ([], buf)
  | d :: ds =>
    let r := segStep buf d
    let p := segTrace r.2 ds
    (r.1.toList :: p.1, p.2)

/-- A sentence-ending character, any of the three kinds. -/
def isEnder (c : Char) : Bool := c = '.' || c = '!' || c = '?'

/-- Index of the last ending character of any of the three kinds present in
the buffer, if there is one. -/
def lastEnderIdx (b : Str) : Option Nat :=
  (b.reverse.findIdx? isEnder).map (fun j => b.length - 1 - j)

/-- Modelled from the spec's words (§4.3 step 4b, claim C3): scan the buffer,
take the substring up to and including the last ending character of any of
the three kinds present, trim it, emit it when non-empty, and continue
scanning the remainder within the same pass.  The fuel only bounds the
number of scan iterations; every iteration strictly shortens the buffer, so
`b.length + 1` iterations always suffice. -/
def specScanF : Nat → Str → List Str × Str
  | 0, b => ([], b)
  | fuel + 1, b =>
    match lastEnderIdx b with
    | none => ([], b)
    | some i =>
      let sentence := pyStrip (b.take (i + 1))
      let p := specScanF fuel (b.drop (i + 1))
      (if sentence = [] then p.1 else sentence :: p.1, p.2)

/-- Modelled from the spec's words: the segmentation pass claim C3 describes,
applied to a whole buffer. -/
def specScan (b : Str) : List Str × Str := specScanF (b.length + 1) b

/-- The segmenter behaviour as amended (claim C3): the first of `'.'`, `'!'`,
`'?'` — checked in that order — that occurs anywhere in the buffer is chosen,
the buffer is split at the last occurrence of that chosen character only, and
the remainder is not rescanned. -/
def amendedScan (b : Str) : Option Str × Str :=
  if b.contains '.' then splitLast b '.'
  else if b.contains '!' then splitLast b '!'
  else if b.contains '?' then splitLast b '?'
  else (none, b)

/-- Characters that survive a whitespace deletion. -/
def nonSpace (c : Char) : Bool := !(pyIsSpace c)

/-- The string `t` is obtained from `s` by deleting only whitespace
characters: `t` is a sublist of `s`, and `s` and `t` agree on their
non-whitespace characters. -/
def WsDel (s t : Str) : Prop :=
  t.Sublist s ∧ t.filter nonSpace = s.filter nonSpace

theorem wsdel_refl (s : Str) : WsDel s s :=
  ⟨List.Sublist.refl s, rfl⟩

theorem wsdel_trans {s t u : Str} (h1 : WsDel s t) (h2 : WsDel t u) : WsDel s u :=
  ⟨h2.1.trans h1.1, h2.2.trans h1.2⟩

theorem wsdel_append {s t s' t' : Str} (h1 : WsDel s t) (h2 : WsDel s' t') :
    WsDel (s ++ s') (t ++ t') :=
  ⟨h1.1.append h2.1, by rw [List.filter_append, List.filter_append, h1.2, h2.2]⟩

theorem filter_nonSpace_dropWhile (s : Str) :
    (s.dropWhile pyIsSpace).filter nonSpace = s.filter nonSpace := by
  induction s with
  | nil => rfl
  | cons c cs ih =>
    cases h : pyIsSpace c with
    | true => simpa [List.dropWhile_cons, h, List.filter_cons, nonSpace] using ih
    | false => simp [List.dropWhile_cons, h, List.filter_cons, nonSpace]

theorem wsdel_dropWhile (s : Str) : WsDel s (s.dropWhile pyIsSpace) :=
  ⟨List.dropWhile_sublist pyIsSpace, filter_nonSpace_dropWhile s⟩

theorem wsdel_reverse {s t : Str} (h : WsDel s t) : WsDel s.reverse t.reverse :=
  ⟨h.1.reverse, by rw [List.filter_reverse, List.filter_reverse, h.2]⟩

theorem wsdel_strip (s : Str) : WsDel s (pyStrip s) := by
  have h1 := wsdel_dropWhile s
  have h2 := wsdel_reverse (wsdel_dropWhile (s.dropWhile pyIsSpace).reverse)
  rw [List.reverse_reverse] at h2
  exact wsdel_trans h1 h2

theorem segStep_wsdel (buf d : Str) :
    WsDel (buf ++ d) ((segStep buf d).1.toList.flatten ++ (segStep buf d).2) := by
  unfold segStep
  cases hf : findEnder (buf ++ d) with
  | none => simpa using wsdel_refl (buf ++ d)
  | some e =>
    unfold splitLast
    have hsplit :
        (buf ++ d).take (lastIdxOf (buf ++ d) e + 1) ++
          (buf ++ d).drop (lastIdxOf (buf ++ d) e + 1) = buf ++ d :=
      List.take_append_drop _ _
    have hstep :=
      wsdel_append (wsdel_strip ((buf ++ d).take (lastIdxOf (buf ++ d) e + 1)))
        (wsdel_refl ((buf ++ d).drop (lastIdxOf (buf ++ d) e + 1)))
    rw [hsplit] at hstep
    by_cases hs : pyStrip ((buf ++ d).take (lastIdxOf (buf ++ d) e + 1)) = []
    · rw [hs] at hstep
      simpa [hs] using hstep
    · simpa [hs] using hstep

theorem segRun_wsdel (deltas : List Str) :
    ∀ buf : Str,
      WsDel (buf ++ deltas.flatten)
        ((segRun buf deltas).1.flatten ++ (segRun buf deltas).2) := by
  induction deltas with
  | nil => intro buf; simpa [segRun] using wsdel_refl buf
  | cons d ds ih =>
    intro buf
    have h1 := wsdel_append (segStep_wsdel buf d) (wsdel_refl ds.flatten)
    have h2 :=
      wsdel_append (wsdel_refl ((segStep buf d).1.toList.flatten)) (ih (segStep buf d).2)
    rw [List.append_assoc, List.append_assoc] at h1
    have h3 := wsdel_trans h1 h2
    simpa [segRun, List.flatten_append, List.append_assoc] using h3

/-- One `{role, content}` entry of `conversation_history`. -/
structure Turn where
  role : Str
  content : Str
  deriving DecidableEq

/-- The `"user"` role string. -/
def userRole : Str := "user".data

/-- The `"assistant"` role string. -/
def assistantRole : Str := "assistant".data

/-- The configured system prompt, `CONFIG["ollama"]["system_prompt"]`. -/
def systemPrompt : Str :=
  ("You are a helpful voice assistant. Keep your responses very brief and concise—ideally 1 sentence. " ++
   "Speak naturally as if having a conversation. Avoid lists, markdown, or lengthy explanations unless explicitly asked. " ++
   "The user sometimes makes typos or autocorrects the wrong thing. Make assumptions about what they may have meant and respond as if they said that.").data

/-- The single system turn that opens every conversation. -/
def systemTurn : Turn := ⟨"system".data, systemPrompt⟩

/-- Python `init_conversation()`: the conversation history is reset to the
single system turn. -/
def init_conversation : List Turn := [systemTurn]

/-- Outcome of the Ollama streaming call consumed by `chat_stream`: the
text deltas actually yielded, and — when the stream raises before it is
fully drained — the deltas yielded up to the exception. -/
inductive StreamOutcome where
  | ok (deltas : List Str)
  | err (deltas : List Str)
  deriving DecidableEq

/-- The opaque external services (Whisper, Ollama, Piper), modelled as pure
functions of their request data. `sttRaw` is the `" ".join(...)` of the
Whisper segment texts before the final `.strip()`; `respond` is the Ollama
delta stream for a posted message list; `synth` is the Piper raw-chunk
stream for one sentence. -/
structure Env where
  sttRaw : List Nat → Nat → Str
  respond : List Turn → StreamOutcome
  synth : Str → List (List Nat)

/-- Python `transcribe_audio`: the joined Whisper segment texts, stripped. -/
def transcribe_audio (env : Env) (audio_data : List Nat) (sample_rate : Nat) : Str :=
  pyStrip (env.sttRaw audio_data sample_rate)

/-- Python `chat_stream`: appends the user turn to `conversation_history`,
streams the reply, and appends the assistant turn (the concatenation of all
yielded deltas) only once the stream is fully drained.  Returns the yielded
deltas, the resulting history and whether the stream finished without
raising. -/
def chat_stream (env : Env) (history : List Turn) (user_message : Str) :
    List Str × List Turn × Bool :=
  let messages := history ++ [⟨userRole, user_message⟩]
  match env.respond messages with
  | .ok ds => (ds, messages ++ [⟨assistantRole, ds.flatten⟩], true)
  | .err ds => (ds, messages, false)

/-- One protocol message sent to the client over the socket. -/
inductive OutMsg where
  | errorMsg (message : Str)
  | transcriptMsg (text : Str)
  | responseText (text : Str) (done : Bool)
  | audioOut (data : List Nat) (sampleRate : Nat)
  | doneMsg
  | historyCleared
  deriving DecidableEq

/-- True for every message kind other than `error` and `done`. -/
def noErrOrDone : OutMsg → Bool
  | .errorMsg _ => false
  | .doneMsg => false
  | _ => true

/-- The `audio {data, sample_rate}` messages streamed while synthesising one
sentence, at the configured TTS sample rate 22050. -/
def sentenceAudio (env : Env) (s : Str) : List OutMsg :=
  (env.synth s).map (fun ch => OutMsg.audioOut ch 22050)

/-- Outbound traffic for one delta of the Responder stream: the
`response_text` echo, then — when the segmenter completes a sentence —
that sentence's audio chunks; also returns the new sentence buffer. -/
def deltaOut (env : Env) (sb d : Str) : List OutMsg × Str :=
  let r := segStep sb d
  (OutMsg.responseText d false ::
      (match r.1 with
       | some s => sentenceAudio env s
       | none => []),
    r.2)

/-- Outbound traffic for the whole delta stream, threading the sentence
buffer through `deltaOut`. -/
def deltasOut (env : Env) : Str → List Str → List OutMsg × Str
  | sb, [] => ([], sb)
  | sb, d :: ds =>
    let p := deltaOut env sb d
    let q := deltasOut env p.2 ds
    (p.1 ++ q.1, q.2)

/-- The per-connection Session state: the conversation transcript, the
inbound audio buffer and the recorded input sample rate. -/
structure SessionState where
  history : List Turn
  audioBuffer : List Nat
  sampleRate : Nat
  deriving DecidableEq

/-- Result of handling one inbound message: the new Session state, the
messages sent to the client, and whether the handler loop is still alive
(`alive = false` models an uncaught exception escaping the `while True`
loop, whose only handler is `except WebSocketDisconnect`). -/
structure StepResult where
  state : SessionState
  out : List OutMsg
  alive : Bool
  deriving DecidableEq

/-- The `end_audio` branch of the websocket handler (the turn pipeline):
empty buffer check, transcription, the `transcript` echo, the
empty-transcript abort, the Responder stream with per-delta segmentation
and synthesis, the trailing-buffer flush, the `response_text done` and
`done` markers, and the buffer clear.  When the Responder stream raises,
the exception propagates: no assistant turn is appended, no further
message is sent, and the loop dies. -/
def runEndAudio (env : Env) (s : SessionState) : StepResult :=
  if s.audioBuffer = [] then
    ⟨s, [.errorMsg "No audio received".data], true⟩
  else
    let t := transcribe_audio env s.audioBuffer s.sampleRate
    if t = [] then
      ⟨⟨s.history, [], s.sampleRate⟩,
        [.transcriptMsg t, .errorMsg "Could not transcribe audio".data], true⟩
    else
      let c := chat_stream env s.history t
      let p := deltasOut env [] c.1
      if c.2.2 then
        let flushSentence := pyStrip p.2
        let flushOut :=
          if flushSentence = [] then [] else sentenceAudio env flushSentence
        ⟨⟨c.2.1, [], s.sampleRate⟩,
          .transcriptMsg t ::
            (p.1 ++ flushOut ++ [.responseText [] true, .doneMsg]), true⟩
      else
        ⟨⟨c.2.1, s.audioBuffer, s.sampleRate⟩, .transcriptMsg t :: p.1, false⟩

/-- One decoded inbound frame.  `unknown` is any well-formed frame whose
`type` matches no branch; `malformed` is a frame that is not well-formed
JSON, on which `json.loads` raises. -/
inductive InMsg where
  | audioIn (data : List Nat) (sampleRate : Option Nat)
  | endAudio
  | clearHistory
  | unknown
  | malformed
  deriving DecidableEq

/-- Dispatch of one inbound message by the websocket handler loop. -/
def stepMsg (env : Env) (s : SessionState) : InMsg → StepResult
  | .audioIn d sr => ⟨⟨s.history, s.audioBuffer ++ d, sr.getD 16000⟩, [], true⟩
  | .endAudio => runEndAudio env s
  | .clearHistory =>
      ⟨⟨init_conversation, s.audioBuffer, s.sampleRate⟩, [.historyCleared], true⟩
  | .unknown => ⟨s, [], true⟩
  | .malformed => ⟨s, [], false⟩

/-- The `while True` receive loop: messages are handled strictly one at a
time in arrival order; once an exception kills the loop, the remaining
inbound messages are never read. -/
def runMsgs (env : Env) : SessionState → List InMsg → SessionState × List OutMsg × Bool
  | s, [] => (s, [], true)
  | s, m :: ms =>
    let r := stepMsg env s m
    if r.alive then
      let q := runMsgs env r.state ms
      (q.1, r.out ++ q.2.1, q.2.2)
    else (r.state, r.out, false)

/-- The Session state of a freshly accepted connection: `init_conversation()`
has run, the audio buffer is empty, and the sample rate defaults to 16000. -/
def initSession : SessionState := ⟨init_conversation, [], 16000⟩

/-- The connection-local variables of one websocket handler: `audio_buffer`
and `sample_rate` are locals of `websocket_endpoint`, so they really are
per-connection. -/
structure ConnState where
  audioBuffer : List Nat
  sampleRate : Nat
  deriving DecidableEq

/-- The process state seen by two concurrent connections A and B:
`conversation_history` is a module-level global shared by every handler,
while the audio buffer and sample rate are handler locals. -/
structure ServerState where
  history : List Turn
  connA : ConnState
  connB : ConnState
  deriving DecidableEq

/-- The Session view one connection's handler works on: the shared global
history plus its own locals. -/
def sessOf (h : List Turn) (c : ConnState) : SessionState :=
  ⟨h, c.audioBuffer, c.sampleRate⟩

/-- Handle one inbound message of connection A (`isA = true`) or B: the
handler runs `stepMsg` on its Session view, then the history lands back in
the shared global and the locals back in that connection only. -/
def stepConnMsg (env : Env) (srv : ServerState) (isA : Bool) (m : InMsg) : ServerState :=
  let c := if isA then srv.connA else srv.connB
  let r := stepMsg env (sessOf srv.history c) m
  let c' : ConnState := ⟨r.state.audioBuffer, r.state.sampleRate⟩
  ⟨r.state.history,
    if isA then c' else srv.connA,
    if isA then srv.connB else c'⟩

/-- An event of the two-connection interleaving: a connection is accepted
(`websocket.accept()` followed by `init_conversation()`, which resets the
shared global history), or one decoded message of one connection is
handled. -/
inductive Ev where
  | connect (isA : Bool)
  | msg (isA : Bool) (m : InMsg)
  deriving DecidableEq

/-- Apply one interleaving event to the process state. -/
def stepEv (env : Env) (srv : ServerState) : Ev → ServerState
  | .connect isA =>
      ⟨init_conversation,
        if isA then ⟨[], 16000⟩ else srv.connA,
        if isA then srv.connB else ⟨[], 16000⟩⟩
  | .msg isA m => stepConnMsg env srv isA m

/-- Run a whole interleaving of two-connection events. -/
def runEvs (env : Env) : ServerState → List Ev → ServerState
  | srv, [] => srv
  | srv, e :: es => runEvs env (stepEv env srv e) es

/-- A process state with no connection yet. -/
def initSrv : ServerState := ⟨init_conversation, ⟨[], 16000⟩, ⟨[], 16000⟩⟩

/-- A concrete healthy environment: every utterance transcribes to `"hi"`,
the model always answers with the single delta `"ok."`, and synthesis of any
sentence yields one audio chunk. -/
def envT : Env :=
  ⟨fun _ _ => "hi".data, fun _ => .ok ["ok.".data], fun _ => [[1]]⟩

/-- A concrete environment whose Ollama stream raises after yielding the
single delta `"Hey "`. -/
def envFail : Env :=
  ⟨fun _ _ => "hi".data, fun _ => .err ["Hey ".data], fun _ => [[1]]⟩

/-- A concrete environment whose transcription is whitespace-only. -/
def envWs : Env :=
  ⟨fun _ _ => "  ".data, fun _ => .ok [], fun _ => []⟩

/-- C2 (counterexample): the claim that the concatenation of all emitted
Sentences plus the final trailing buffer equals the concatenation of the
deltas exactly fails on the single delta `" a."`: the emitted sentence is
stripped, so the leading space is dropped. -/
theorem c2_counterexample :
    (segRun [] [" a.".data]).1.flatten ++ (segRun [] [" a.".data]).2
      ≠ ([" a.".data] : List Str).flatten := by decide

/-- C2 (amended): for every delta sequence concatenating to `S`, the
concatenation of all emitted Sentences followed by the final trailing
sentence buffer is obtained from `S` by deleting only whitespace characters
(the `.strip()` applied to each emitted sentence may drop whitespace at the
sentence boundaries); no non-whitespace character is dropped, duplicated or
reordered. -/
theorem c2_amended (deltas : List Str) :
    WsDel deltas.flatten
      ((segRun [] deltas).1.flatten ++ (segRun [] deltas).2) := by
  simpa using segRun_wsdel deltas []

/-- C2 (amended, instance): the amended conservation statement at a concrete
delta sequence. -/
theorem c2_amended_witness :
    WsDel ([" a.".data] : List Str).flatten
      ((segRun [] [" a.".data]).1.flatten ++ (segRun [] [" a.".data]).2) :=
  c2_amended [" a.".data]

/-- C3 (counterexample): on the single delta `"a. b!"` the code splits at the
last `'.'` (the first ender kind present), emitting `"a."` and keeping
`" b!"`, whereas the claim's described pass — split at the last ending
character of any kind, then keep scanning — would emit `"a. b!"` and leave an
empty buffer. -/
theorem c3_counterexample :
    segStep [] "a. b!".data = (some "a.".data, " b!".data)
    ∧ specScan "a. b!".data = (["a. b!".data], [])
    ∧ "a.".data ≠ "a. b!".data
    ∧ " b!".data ≠ ([] : Str) := by decide

/-- C3 (amended): whenever a delta has been appended to the sentence buffer,
the segmenter chooses the first of `'.'`, `'!'`, `'?'` — checked in that
order — that occurs anywhere in the buffer, takes the substring up to and
including the last occurrence of that chosen character only, trims it, emits
it as a Sentence if non-empty, makes the remainder the new buffer, and stops:
the remainder is not rescanned, so at most one Sentence is emitted per
delta. -/
theorem c3_amended (buf delta : Str) :
    segStep buf delta = amendedScan (buf ++ delta) := by
  unfold segStep amendedScan findEnder sentence_enders
  cases h1 : (buf ++ delta).contains '.' <;>
    cases h2 : (buf ++ delta).contains '!' <;>
      cases h3 : (buf ++ delta).contains '?' <;>
        simp only [List.find?, h1, h2, h3, Bool.false_eq_true, if_false, if_true,
          reduceCtorEq, reduceIte]

/-- C3 (amended, instance): the amended description at a concrete buffer and
delta. -/
theorem c3_amended_witness :
    segStep [] "a. b!".data = amendedScan ([] ++ "a. b!".data) :=
  c3_amended [] "a. b!".data

/-- The first delta of the spec's worked segmenter example. -/
def delta1 : Str := "Hello world. How are".data

/-- The second delta of the spec's worked segmenter example. -/
def delta2 : Str := " you? Fine.".data

/-- C4 (counterexample): on `"Hello world. How are"` then `" you? Fine."`,
the code emits `"Hello world."` after delta 1 but then the single Sentence
`"How are you? Fine."` after delta 2 — because `'.'` is checked before `'?'`
and the split lands at the final `'.'` — not the claimed `"How are you?"`
followed by `"Fine."`. -/
theorem c4_counterexample :
    segTrace [] [delta1, delta2]
      = ([["Hello world.".data], ["How are you? Fine.".data]], [])
    ∧ (["How are you? Fine.".data] : List Str)
        ≠ ["How are you?".data, "Fine.".data] := by decide

/-- C4 (amended): when the deltas `"Hello world. How are"` and `" you? Fine."`
are processed in order starting from an empty buffer, exactly the Sentence
`"Hello world."` is emitted after the first delta and exactly the single
Sentence `"How are you? Fine."` after the second, leaving an empty buffer. -/
theorem c4_amended :
    segTrace [] [delta1, delta2]
      = ([["Hello world.".data], ["How are you? Fine.".data]], []) := by decide

theorem pyStrip_eq_nil_of_all_space {s : Str} (h : s.all pyIsSpace = true) :
    pyStrip s = [] := by
  have hd : s.dropWhile pyIsSpace = [] :=
    List.dropWhile_eq_nil_iff.mpr (by simpa using List.all_eq_true.mp h)
  simp [pyStrip, hd]

/-- C7: on `end_audio` with a non-empty audio buffer, the first message sent
is always `transcript {text}`, even when the transcription is empty; and
whenever the raw transcription is empty or whitespace-only, the handler then
sends the `"Could not transcribe audio"` error and aborts the turn: the
history gets no user turn, the buffer is cleared, and the loop stays
alive. -/
theorem c7_transcript_then_abort (env : Env) (s : SessionState)
    (h1 : s.audioBuffer ≠ []) :
    (runEndAudio env s).out.head?
        = some (.transcriptMsg (transcribe_audio env s.audioBuffer s.sampleRate))
    ∧ ((env.sttRaw s.audioBuffer s.sampleRate).all pyIsSpace = true →
        runEndAudio env s
          = ⟨⟨s.history, [], s.sampleRate⟩,
              [.transcriptMsg [], .errorMsg "Could not transcribe audio".data],
              true⟩) := by
  constructor
  · unfold runEndAudio
    by_cases ht : transcribe_audio env s.audioBuffer s.sampleRate = []
    · simp [h1, ht]
    · cases hok :
        (chat_stream env s.history (transcribe_audio env s.audioBuffer s.sampleRate)).2.2 <;>
          simp [h1, ht, hok]
  · intro hall
    have ht : transcribe_audio env s.audioBuffer s.sampleRate = [] :=
      pyStrip_eq_nil_of_all_space hall
    unfold runEndAudio
    simp [h1, ht]

/-- C7 (instance): the hypotheses of `c7_transcript_then_abort` hold and the
conclusion evaluates at a concrete whitespace-only transcription. -/
theorem c7_witness :
    (⟨init_conversation, [5], 16000⟩ : SessionState).audioBuffer ≠ []
    ∧ (envWs.sttRaw [5] 16000).all pyIsSpace = true
    ∧ (runEndAudio envWs ⟨init_conversation, [5], 16000⟩).out.head?
        = some (.transcriptMsg (transcribe_audio envWs [5] 16000))
    ∧ runEndAudio envWs ⟨init_conversation, [5], 16000⟩
        = ⟨⟨init_conversation, [], 16000⟩,
            [.transcriptMsg [], .errorMsg "Could not transcribe audio".data],
            true⟩ :=
  ⟨by decide, by decide,
    (c7_transcript_then_abort envWs ⟨init_conversation, [5], 16000⟩ (by decide)).1,
    (c7_transcript_then_abort envWs ⟨init_conversation, [5], 16000⟩ (by decide)).2
      (by decide)⟩

/-- C8: an `end_audio` received while the audio buffer is empty yields
exactly the single `"No audio received"` error message — no `transcript`,
`response_text`, `audio` or `done` — leaves the Session state (transcript
and buffer) unchanged, and keeps the loop alive. -/
theorem c8_empty_buffer (env : Env) (s : SessionState) (h : s.audioBuffer = []) :
    stepMsg env s .endAudio = ⟨s, [.errorMsg "No audio received".data], true⟩ := by
  simp [stepMsg, runEndAudio, h]

/-- C8 (instance): the empty-buffer case at the initial Session state. -/
theorem c8_witness :
    initSession.audioBuffer = []
    ∧ stepMsg envT initSession .endAudio
        = ⟨initSession, [.errorMsg "No audio received".data], true⟩ :=
  ⟨rfl, c8_empty_buffer envT initSession rfl⟩

/-- C6 (counterexample): a malformed frame does not merely drop that one
message: the `json.loads` exception escapes the loop (only
`WebSocketDisconnect` is caught), so a `clear_history` queued right behind
it is never processed — processed alone it would produce `history_cleared` —
and the connection dies. -/
theorem c6_counterexample :
    runMsgs envT initSession [.malformed, .clearHistory] = (initSession, [], false)
    ∧ runMsgs envT initSession [.clearHistory]
        = (⟨init_conversation, [], 16000⟩, [.historyCleared], true) := by decide

/-- C6 (amended): an inbound frame that is not well-formed JSON leaves the
Session state unchanged and produces no outbound message, but the decode
exception tears the connection down: the handler loop ends and no later
inbound message is processed. -/
theorem c6_amended (env : Env) (s : SessionState) (ms : List InMsg) :
    runMsgs env s (.malformed :: ms) = (s, [], false) := by
  simp [runMsgs, stepMsg]

/-- C6 (amended, instance): the amended statement at a concrete queue. -/
theorem c6_amended_witness :
    runMsgs envT initSession [.malformed] = (initSession, [], false) :=
  c6_amended envT initSession []

theorem deltaOut_clean (env : Env) (sb d : Str) :
    ∀ m ∈ (deltaOut env sb d).1, noErrOrDone m = true := by
  intro m hm
  unfold deltaOut at hm
  rcases List.mem_cons.mp hm with h | h
  · subst h; rfl
  · cases hseg : (segStep sb d).1 with
    | none => rw [hseg] at h; simp at h
    | some sent =>
      rw [hseg] at h
      unfold sentenceAudio at h
      obtain ⟨ch, _, rfl⟩ := List.mem_map.mp h
      rfl

theorem deltasOut_clean (env : Env) :
    ∀ (ds : List Str) (sb : Str), ∀ m ∈ (deltasOut env sb ds).1, noErrOrDone m = true := by
  intro ds
  induction ds with
  | nil => intro sb m hm; simp [deltasOut] at hm
  | cons d ds ih =>
    intro sb m hm
    unfold deltasOut at hm
    rcases List.mem_append.mp hm with h | h
    · exact deltaOut_clean env sb d m h
    · exact ih (deltaOut env sb d).2 m h

/-- C5 (counterexample): with a Responder stream that raises after one delta,
the turn pipeline appends no assistant turn (the history ends with the user
turn), sends no `error` and no `done` — only the `transcript` echo and the
deltas already forwarded — and the handler loop dies, so the Session is not
usable for a next turn. -/
theorem c5_counterexample :
    (runEndAudio envFail ⟨init_conversation, [7], 16000⟩).state.history
      = [systemTurn, ⟨userRole, "hi".data⟩]
    ∧ (runEndAudio envFail ⟨init_conversation, [7], 16000⟩).out
        = [.transcriptMsg "hi".data, .responseText "Hey ".data false]
    ∧ (runEndAudio envFail ⟨init_conversation, [7], 16000⟩).alive = false := by
  decide

/-- C5 (amended): if the Responder stream raises after the user turn has been
appended, the turn pipeline appends no assistant turn (the history ends with
the user turn), emits no `error` and no `done` message — only the
`transcript` echo and the `response_text`/`audio` traffic of the deltas
yielded before the failure — and the exception terminates the handler loop,
tearing the connection down instead of leaving the Session usable. -/
theorem c5_amended (env : Env) (s : SessionState) (t : Str) (ds : List Str)
    (h1 : s.audioBuffer ≠ [])
    (ht : transcribe_audio env s.audioBuffer s.sampleRate = t)
    (h2 : t ≠ [])
    (h3 : env.respond (s.history ++ [⟨userRole, t⟩]) = .err ds) :
    runEndAudio env s
      = ⟨⟨s.history ++ [⟨userRole, t⟩], s.audioBuffer, s.sampleRate⟩,
          .transcriptMsg t :: (deltasOut env [] ds).1, false⟩
    ∧ ∀ m ∈ (deltasOut env [] ds).1, noErrOrDone m = true := by
  subst ht
  refine ⟨?_, deltasOut_clean env ds []⟩
  unfold runEndAudio chat_stream
  simp [h1, h2, h3]

/-- C5 (instance): the hypotheses of `c5_amended` hold and its conclusion
evaluates at a concrete failing stream. -/
theorem c5_witness :
    ((⟨init_conversation, [7], 16000⟩ : SessionState).audioBuffer ≠ []
      ∧ transcribe_audio envFail [7] 16000 = "hi".data
      ∧ ("hi".data : Str) ≠ []
      ∧ envFail.respond (init_conversation ++ [⟨userRole, "hi".data⟩])
          = .err ["Hey ".data])
    ∧ (runEndAudio envFail ⟨init_conversation, [7], 16000⟩
        = ⟨⟨init_conversation ++ [⟨userRole, "hi".data⟩], [7], 16000⟩,
            .transcriptMsg "hi".data :: (deltasOut envFail [] ["Hey ".data]).1,
            false⟩
       ∧ ∀ m ∈ (deltasOut envFail [] ["Hey ".data]).1, noErrOrDone m = true) :=
  ⟨⟨by decide, by decide, by decide, rfl⟩,
    c5_amended envFail ⟨init_conversation, [7], 16000⟩ "hi".data ["Hey ".data]
      (by decide) (by decide) (by decide) rfl⟩

/-- A turn that succeeds end to end: the audio buffer is non-empty, the
transcription is non-empty, and the Responder stream is drained without
raising. -/
def successfulTurn (env : Env) (s : SessionState) : Prop :=
  s.audioBuffer ≠ []
  ∧ transcribe_audio env s.audioBuffer s.sampleRate ≠ []
  ∧ ∃ ds, env.respond
      (s.history ++ [⟨userRole, transcribe_audio env s.audioBuffer s.sampleRate⟩])
        = .ok ds

theorem runEndAudio_ok_eq (env : Env) (s : SessionState) (t : Str) (ds : List Str)
    (h1 : s.audioBuffer ≠ [])
    (ht : transcribe_audio env s.audioBuffer s.sampleRate = t)
    (h2 : t ≠ [])
    (h3 : env.respond (s.history ++ [⟨userRole, t⟩]) = .ok ds) :
    runEndAudio env s
      = ⟨⟨s.history ++ [⟨userRole, t⟩, ⟨assistantRole, ds.flatten⟩], [], s.sampleRate⟩,
          .transcriptMsg t ::
            ((deltasOut env [] ds).1 ++
              (if pyStrip (deltasOut env [] ds).2 = [] then []
               else sentenceAudio env (pyStrip (deltasOut env [] ds).2)) ++
              [.responseText [] true, .doneMsg]),
          true⟩ := by
  subst ht
  unfold runEndAudio chat_stream
  simp [h1, h2, h3]

theorem successfulTurn_shape (env : Env) (s : SessionState)
    (h : successfulTurn env s) :
    (runEndAudio env s).alive = true
    ∧ (runEndAudio env s).state.audioBuffer = []
    ∧ (runEndAudio env s).state.history.map Turn.role
        = s.history.map Turn.role ++ [userRole, assistantRole]
    ∧ ∃ pre, (runEndAudio env s).out
        = pre ++ [.responseText [] true, .doneMsg] := by
  obtain ⟨h1, h2, ds, h3⟩ := h
  rw [runEndAudio_ok_eq env s _ ds h1 rfl h2 h3]
  refine ⟨rfl, rfl, by simp, ?_⟩
  exact ⟨.transcriptMsg (transcribe_audio env s.audioBuffer s.sampleRate) ::
      ((deltasOut env [] ds).1 ++
        (if pyStrip (deltasOut env [] ds).2 = [] then []
         else sentenceAudio env (pyStrip (deltasOut env [] ds).2))),
    by simp⟩

/-- N successful turns reached from a Session state: any interleaving of
`audio` bufferings and ignored unknown frames with `end_audio` turns each
of which satisfies `successfulTurn`. -/
inductive Turns (env : Env) (s : SessionState) : Nat → SessionState → Prop where
  | nil : Turns env s 0 s
  | fill (d : List Nat) (sr : Option Nat) {n : Nat} {s' : SessionState} :
      Turns env s n s' → Turns env s n (stepMsg env s' (.audioIn d sr)).state
  | unk {n : Nat} {s' : SessionState} :
      Turns env s n s' → Turns env s n (stepMsg env s' .unknown).state
  | turn {n : Nat} {s' : SessionState} :
      Turns env s n s' → successfulTurn env s' →
      Turns env s (n + 1) (stepMsg env s' .endAudio).state

theorem turns_roles {env : Env} {s : SessionState} {n : Nat} {s' : SessionState}
    (h : Turns env s n s') :
    s'.history.map Turn.role
      = s.history.map Turn.role
          ++ (List.replicate n ([userRole, assistantRole] : List Str)).flatten := by
  induction h with
  | nil => simp
  | fill d sr h ih => simpa [stepMsg] using ih
  | unk h ih => simpa [stepMsg] using ih
  | turn h hs ih =>
    have hr := (successfulTurn_shape _ _ hs).2.2.1
    simp only [stepMsg] at hr ⊢
    rw [hr, ih, List.replicate_succ', List.flatten_append, List.append_assoc]
    simp

theorem flatten_replicate_pair_length (n : Nat) :
    ((List.replicate n ([userRole, assistantRole] : List Str)).flatten).length
      = 2 * n := by
  induction n with
  | zero => rfl
  | succ k ih =>
    rw [List.replicate_succ, List.flatten_cons, List.length_append, ih]
    simp; omega

/-- C9: after N successful turns starting from a freshly initialised
transcript (connection start or the most recent `clear_history`), the
transcript has exactly `1 + 2N` turns — the leading system turn followed by
N user/assistant pairs — and a `clear_history` message resets it to exactly
the single system turn. -/
theorem c9_transcript_invariant (env : Env) (s s' : SessionState) (N : Nat)
    (h0 : s.history = init_conversation) (h : Turns env s N s') :
    s'.history.length = 1 + 2 * N
    ∧ s'.history.map Turn.role
        = "system".data
            :: (List.replicate N ([userRole, assistantRole] : List Str)).flatten
    ∧ (stepMsg env s' .clearHistory).state.history = init_conversation := by
  have hr := turns_roles h
  rw [h0] at hr
  have hr' : s'.history.map Turn.role
      = "system".data
          :: (List.replicate N ([userRole, assistantRole] : List Str)).flatten := by
    simpa [init_conversation, systemTurn] using hr
  refine ⟨?_, hr', rfl⟩
  have hl := congrArg List.length hr'
  rw [List.length_map] at hl
  rw [hl, List.length_cons, flatten_replicate_pair_length]
  omega

/-- The Session state after buffering one audio chunk on a fresh connection. -/
def sessAfterAudio : SessionState := (stepMsg envT initSession (.audioIn [9] none)).state

/-- C9 (instance): one successful concrete turn from a fresh connection,
with the hypotheses of `c9_transcript_invariant` discharged. -/
theorem c9_witness :
    initSession.history = init_conversation
    ∧ ((stepMsg envT sessAfterAudio .endAudio).state.history.length = 1 + 2 * 1
        ∧ (stepMsg envT sessAfterAudio .endAudio).state.history.map Turn.role
            = "system".data
                :: (List.replicate 1 ([userRole, assistantRole] : List Str)).flatten
        ∧ (stepMsg envT (stepMsg envT sessAfterAudio .endAudio).state
              .clearHistory).state.history = init_conversation) := by
  have hsucc : successfulTurn envT sessAfterAudio :=
    ⟨by decide, by decide, ⟨["ok.".data], rfl⟩⟩
  exact ⟨rfl,
    c9_transcript_invariant envT initSession _ 1 rfl
      (Turns.turn (Turns.fill [9] none Turns.nil) hsucc)⟩

/-- C10: inbound messages are handled by one strictly sequential loop, so
everything queued behind an `end_audio` takes effect only on the state the
completed turn leaves behind: the whole turn output (ending with the
`response_text done` marker and `done`) precedes any output for the queued
messages, the queued `clear_history` therefore acts after the assistant
append, and queued `audio` lands in the already-cleared buffer of the next
turn. -/
theorem c10_sequential_loop (env : Env) (s : SessionState) (ms : List InMsg)
    (h : successfulTurn env s) :
    runMsgs env s (.endAudio :: ms)
      = ((runMsgs env (runEndAudio env s).state ms).1,
          (runEndAudio env s).out ++ (runMsgs env (runEndAudio env s).state ms).2.1,
          (runMsgs env (runEndAudio env s).state ms).2.2)
    ∧ (runEndAudio env s).state.audioBuffer = []
    ∧ (runEndAudio env s).state.history.map Turn.role
        = s.history.map Turn.role ++ [userRole, assistantRole]
    ∧ ∃ pre, (runEndAudio env s).out = pre ++ [.responseText [] true, .doneMsg] := by
  have hs := successfulTurn_shape env s h
  refine ⟨?_, hs.2.1, hs.2.2.1, hs.2.2.2⟩
  simp [runMsgs, stepMsg, hs.1]

/-- C10 (instance): a `clear_history` queued behind a successful concrete
`end_audio`, with the hypothesis of `c10_sequential_loop` discharged. -/
theorem c10_witness :
    successfulTurn envT ⟨init_conversation, [9], 16000⟩
    ∧ (runMsgs envT ⟨init_conversation, [9], 16000⟩ [.endAudio, .clearHistory]
        = ((runMsgs envT (runEndAudio envT ⟨init_conversation, [9], 16000⟩).state
              [.clearHistory]).1,
            (runEndAudio envT ⟨init_conversation, [9], 16000⟩).out ++
              (runMsgs envT (runEndAudio envT ⟨init_conversation, [9], 16000⟩).state
                [.clearHistory]).2.1,
            (runMsgs envT (runEndAudio envT ⟨init_conversation, [9], 16000⟩).state
              [.clearHistory]).2.2)
       ∧ (runEndAudio envT ⟨init_conversation, [9], 16000⟩).state.audioBuffer = []
       ∧ (runEndAudio envT ⟨init_conversation, [9], 16000⟩).state.history.map Turn.role
           = (⟨init_conversation, [9], 16000⟩ : SessionState).history.map Turn.role
               ++ [userRole, assistantRole]
       ∧ ∃ pre, (runEndAudio envT ⟨init_conversation, [9], 16000⟩).out
           = pre ++ [.responseText [] true, .doneMsg]) := by
  have hsucc : successfulTurn envT ⟨init_conversation, [9], 16000⟩ :=
    ⟨by decide, by decide, ⟨["ok.".data], rfl⟩⟩
  exact ⟨hsucc, c10_sequential_loop envT _ [.clearHistory] hsucc⟩

/-- The concrete interleaving for the C1 counterexample: A connects, B
connects, A records audio and completes a turn. -/
def evsA : List Ev :=
  [.connect true, .connect false, .msg true (.audioIn [9] none), .msg true .endAudio]

/-- C1 (counterexample): with two connections open, A completes a turn and
its transcript holds a system, a user and an assistant turn; a single
`clear_history` protocol message on connection B then resets that transcript
to the lone system turn — B's message changed the transcript contents of A's
session, because `conversation_history` is a process-wide global. -/
theorem c1_counterexample :
    (runEvs envT initSrv evsA).history
      = [systemTurn, ⟨userRole, "hi".data⟩, ⟨assistantRole, "ok.".data⟩]
    ∧ (runEvs envT initSrv (evsA ++ [.msg false .clearHistory])).history
        = [systemTurn]
    ∧ ([systemTurn, ⟨userRole, "hi".data⟩, ⟨assistantRole, "ok.".data⟩] : List Turn)
        ≠ [systemTurn] := by decide

/-- C1 (amended): the audio buffer and sample rate are exclusive to each
connection — no message or accept on connection B ever changes connection
A's locals — but the conversation transcript is a single process-wide
global shared by all connections: a `clear_history` on B (or B's accept,
which reruns `init_conversation`) resets the transcript used by A to the
single system turn, regardless of the turns A had accumulated. -/
theorem c1_amended (env : Env) (srv : ServerState) (m : InMsg) :
    (stepEv env srv (.msg false m)).connA = srv.connA
    ∧ (stepEv env srv (.connect false)).connA = srv.connA
    ∧ (stepEv env srv (.msg false .clearHistory)).history = init_conversation
    ∧ (stepEv env srv (.connect false)).history = init_conversation :=
  ⟨rfl, rfl, rfl, rfl⟩

/-- C1 (amended, instance): the amended statement at a concrete state and
message. -/
theorem c1_amended_witness :
    (stepEv envT initSrv (.msg false .unknown)).connA = initSrv.connA
    ∧ (stepEv envT initSrv (.connect false)).connA = initSrv.connA
    ∧ (stepEv envT initSrv (.msg false .clearHistory)).history = init_conversation
    ∧ (stepEv envT initSrv (.connect false)).history = init_conversation :=
  c1_amended envT initSrv .unknown

end VoiceServer
